import Mathlib

/-!
Formal model of the Link Tracker Pro redirect/attribution engine
(`server.js`).  The repository contains two drafts of the application:

* a multi-tenant variant (users table, `UNIQUE(user_id, slug)`,
  `parseConversionRate` / `parseMoney` / `slugify`, pre-check loop with
  random suffixes, plain `INSERT`);
* a single-tenant variant (`slug TEXT UNIQUE`, `parseCR` / `parseAOV`,
  inline slug construction, `INSERT OR REPLACE`, UTM forwarding on
  redirect).

Numbers are modelled as rationals (the JavaScript engine computes with
doubles; every concrete value exercised here is exactly representable at
the granularity the statements use).  Rational values are built with
`mkRat` and integer operations so that they evaluate by kernel reduction;
bridge lemmas (`qDiv100_eq`, `qOfParts_eq`, `mkRat_div_eq`) restate them
with ordinary field division.  Strings are Lean strings; the JavaScript
string primitives used by the code (`parseFloat`, `Number`, `trim`,
`toLowerCase`, `replace`, `startsWith`) are modelled on ASCII character
lists, matching their behaviour on the inputs the service handles.
-/

/-- Division of a rational by 100, written so that it evaluates by kernel
reduction; `qDiv100_eq` shows it is plain division by 100. -/
def qDiv100 (q : ℚ) : ℚ := mkRat q.num (q.den * 100)

/-- Value `ip.fp` of an integer part, a fraction part and the fraction
length, written with `mkRat`; `qOfParts_eq` gives the usual form. -/
def qOfParts (ip fn fl : ℕ) : ℚ := mkRat (ip * 10 ^ fl + fn) (10 ^ fl)

theorem mkRat_div_eq (n : ℤ) (d : ℕ) : (mkRat n d : ℚ) = (n : ℚ) / (d : ℚ) := by
  rw [Rat.mkRat_eq_divInt, Rat.divInt_eq_div]
  norm_num

theorem qDiv100_eq (q : ℚ) : qDiv100 q = q / 100 := by
  rw [qDiv100, mkRat_div_eq]
  push_cast
  rw [← div_div, Rat.num_div_den]

theorem qOfParts_eq (ip fn fl : ℕ) :
    qOfParts ip fn fl = (ip : ℚ) + (fn : ℚ) / 10 ^ fl := by
  rw [qOfParts, mkRat_div_eq]
  push_cast
  rw [add_div]
  congr 1
  rw [mul_div_assoc, div_self (by positivity), mul_one]

/-- Process-wide default conversion rate: `Number(process.env.DEFAULT_CR || 0.008)`. -/
def DEFAULT_CR : ℚ := mkRat 8 1000

/-- Process-wide default average order value: `Number(process.env.DEFAULT_AOV || 45)`. -/
def DEFAULT_AOV : ℚ := 45

theorem DEFAULT_CR_eq : DEFAULT_CR = 8/1000 := by
  rw [DEFAULT_CR, mkRat_div_eq]; norm_num

/-- Value of a decimal digit list read left to right. -/
def natOfDigits (l : List Char) : ℕ :=
  List.foldl (fun a c => a * 10 + (c.toNat - 48)) 0 l

/-- Modelled platform primitive: JavaScript `parseFloat` on a string that
contains only decimal digits and dots (which is what the cleaning regex
`replace(/[^0-9.]/g, ...)` in `parseConversionRate` / `parseMoney`
guarantees).  It reads an optional integer part, an optional dot and an
optional fraction part, and is NaN (`none`) when no digit is read. -/
def jsParseFloat (l : List Char) : Option ℚ :=
  match l.dropWhile Char.isDigit with
  | '.' :: rest2 =>
      if (l.takeWhile Char.isDigit).isEmpty && (rest2.takeWhile Char.isDigit).isEmpty then
        none
      else
        some (qOfParts (natOfDigits (l.takeWhile Char.isDigit))
                       (natOfDigits (rest2.takeWhile Char.isDigit))
                       (rest2.takeWhile Char.isDigit).length)
  | _ =>
      if (l.takeWhile Char.isDigit).isEmpty then none
      else some ((natOfDigits (l.takeWhile Char.isDigit) : ℚ))

/-- The cleaning step `input.toString().replace(/[^0-9.]/g, "")` of
`parseConversionRate` and `parseMoney`, as a character list. -/
def cleanNum (s : String) : List Char :=
  s.data.filter (fun c => c.isDigit || c == '.')

/-- The magnitude disambiguation of `parseConversionRate` applied to an
already parsed number (server.js lines 149-152): the `!num` guard, then
`> 1` and `> 0.2` thresholds dividing by 100. -/
def crFromNum (d num : ℚ) : ℚ :=
  if num = 0 then d
  else if 1 < num then qDiv100 num
  else if mkRat 1 5 < num then qDiv100 num
  else num

theorem crFromNum_eq (d num : ℚ) :
    crFromNum d num =
      (if num = 0 then d
       else if 1 < num then num / 100
       else if 1/5 < num then num / 100
       else num) := by
  have h5 : (mkRat 1 5 : ℚ) = 1/5 := by rw [mkRat_div_eq]; norm_num
  rw [crFromNum, h5, qDiv100_eq]

/-- Embedding of `parseConversionRate` (multi-tenant variant, server.js
lines 145-153).  `d` is the process default `DEFAULT_CR`; the source reads
it from a module-level constant.  The `input = ""` branch is the JS
falsiness check `if (!input)`; a parse failure is `isNaN(num)` and a zero
parse is the `!num` guard, both of which return the default. -/
def parseConversionRate (d : ℚ) (input : String) : ℚ :=
  if input = "" then d
  else
    match jsParseFloat (cleanNum input) with
    | none => d
    | some num => crFromNum d num

/-- Embedding of `parseMoney` (multi-tenant variant, server.js lines
155-160): same cleaning, then `num > 0 ? num : DEFAULT_AOV`. -/
def parseMoney (d : ℚ) (input : String) : ℚ :=
  if input = "" then d
  else
    match jsParseFloat (cleanNum input) with
    | none => d
    | some num => if 0 < num then num else d

/-- Every value produced by the parseFloat model is nonnegative (it is a
sum of natural-number values and a nonnegative fraction). -/
theorem jsParseFloat_nonneg (l : List Char) (q : ℚ) (h : jsParseFloat l = some q) :
    0 ≤ q := by
  unfold jsParseFloat at h
  split at h
  · split at h
    · exact absurd h (by simp)
    · rw [Option.some.injEq] at h
      rw [← h, qOfParts_eq]
      positivity
  · split at h
    · exact absurd h (by simp)
    · rw [Option.some.injEq] at h
      rw [← h]
      positivity

example : parseConversionRate DEFAULT_CR "8" = mkRat 8 100 := by decide
example : parseConversionRate DEFAULT_CR "0.8" = mkRat 8 1000 := by decide
example : parseConversionRate DEFAULT_CR "0.008" = mkRat 8 1000 := by decide
example : parseConversionRate DEFAULT_CR "" = DEFAULT_CR := by decide
example : parseConversionRate DEFAULT_CR "0" = DEFAULT_CR := by decide
example : parseConversionRate DEFAULT_CR "500" = 5 := by decide
example : parseConversionRate DEFAULT_CR "1%" = mkRat 1 100 := by decide
example : parseMoney DEFAULT_AOV "$45.50" = mkRat 91 2 := by decide

theorem crFromNum_pos (d num : ℚ) (hd : 0 < d) (hnn : 0 ≤ num) :
    0 < crFromNum d num := by
  rw [crFromNum_eq]
  by_cases h0 : num = 0
  · simp [h0, hd]
  · have hpos : 0 < num := lt_of_le_of_ne hnn (Ne.symm h0)
    by_cases h1 : 1 < num
    · simp only [h0, if_false, h1, if_true]
      positivity
    · by_cases h2 : 1/5 < num
      · simp only [h0, if_false, h1, h2, if_true]
        positivity
      · rw [if_neg h0, if_neg h1, if_neg h2]
        exact hpos

theorem crFromNum_le_one (d num : ℚ) (hd1 : d ≤ 1) (hle : num ≤ 100) :
    crFromNum d num ≤ 1 := by
  rw [crFromNum_eq]
  by_cases h0 : num = 0
  · simp [h0, hd1]
  · by_cases h1 : 1 < num
    · simp only [h0, if_false, h1, if_true]
      rw [div_le_one (by norm_num)]
      exact hle
    · by_cases h2 : 1/5 < num
      · simp only [h0, if_false, h1, h2, if_true]
        rw [div_le_one (by norm_num)]
        exact le_trans (le_of_not_lt h1) (by norm_num)
      · rw [if_neg h0, if_neg h1, if_neg h2]
        exact le_of_not_lt h1

/-- C1: the claim as frozen says the magnitude chain ends with "else it
returns the number unchanged"; the input `"0"` parses to the number `0`,
so the chain would return `0`, but the code's `!num` guard returns
`DEFAULT_CR = 0.008` instead. -/
theorem claim1_counterexample :
    parseConversionRate DEFAULT_CR "0" = DEFAULT_CR ∧
    DEFAULT_CR = 8/1000 ∧
    jsParseFloat (cleanNum "0") = some 0 ∧
    parseConversionRate DEFAULT_CR "0" ≠ 0 := by
  refine ⟨by decide, DEFAULT_CR_eq, by decide, ?_⟩
  rw [show parseConversionRate DEFAULT_CR "0" = DEFAULT_CR from by decide, DEFAULT_CR_eq]
  norm_num

/-- C1 (amended): when the stripped input parses to a number,
`parseConversionRate` returns the default on a zero parse and otherwise
applies the magnitude chain: greater than 1 divides by 100, else greater
than 0.2 divides by 100, else the number is returned unchanged; the four
quoted boundary examples hold, and `"0"` yields the default. -/
theorem claim1_amended (d : ℚ) (s : String) (num : ℚ)
    (h : jsParseFloat (cleanNum s) = some num) :
    parseConversionRate d s =
      (if num = 0 then d
       else if 1 < num then num / 100
       else if 1/5 < num then num / 100
       else num) ∧
    parseConversionRate DEFAULT_CR "8" = 8/100 ∧
    parseConversionRate DEFAULT_CR "0.8" = 8/1000 ∧
    parseConversionRate DEFAULT_CR "0.008" = 8/1000 ∧
    parseConversionRate DEFAULT_CR "" = DEFAULT_CR ∧
    parseConversionRate DEFAULT_CR "0" = DEFAULT_CR := by
  constructor
  · rw [← crFromNum_eq]
    unfold parseConversionRate
    by_cases hs : s = ""
    · subst hs
      rw [show jsParseFloat (cleanNum "") = none from by decide] at h
      exact absurd h (by simp)
    · rw [if_neg hs, h]
  refine ⟨?_, ?_, ?_, by decide, by decide⟩
  · rw [show parseConversionRate DEFAULT_CR "8" = mkRat 8 100 from by decide, mkRat_div_eq]
    norm_num
  · rw [show parseConversionRate DEFAULT_CR "0.8" = mkRat 8 1000 from by decide, mkRat_div_eq]
    norm_num
  · rw [show parseConversionRate DEFAULT_CR "0.008" = mkRat 8 1000 from by decide, mkRat_div_eq]
    norm_num

/-- C1 witness: the amended statement applied at the concrete input "8". -/
theorem claim1_witness :
    jsParseFloat (cleanNum "8") = some 8 ∧
    parseConversionRate DEFAULT_CR "8" = 8/100 :=
  ⟨by decide, (claim1_amended DEFAULT_CR "8" 8 (by decide)).2.1⟩

/-- C2: the claim says the result always lies in the interval (0, 1]; the
input `"500"` parses to 500 which the code divides by 100, returning 5. -/
theorem claim2_counterexample :
    parseConversionRate DEFAULT_CR "500" = 5 ∧
    ¬ parseConversionRate DEFAULT_CR "500" ≤ 1 := by
  refine ⟨by decide, ?_⟩
  rw [show parseConversionRate DEFAULT_CR "500" = 5 from by decide]
  norm_num

/-- C2 (amended): with a default in (0, 1], `parseConversionRate` always
returns a positive value; the result is at most 1 whenever the parsed
number does not exceed 100; a failed or zero parse yields the default. -/
theorem claim2_amended (d : ℚ) (s : String) (hd : 0 < d) (hd1 : d ≤ 1) :
    0 < parseConversionRate d s ∧
    ((∀ num, jsParseFloat (cleanNum s) = some num → num ≤ 100) →
      parseConversionRate d s ≤ 1) ∧
    (jsParseFloat (cleanNum s) = none → parseConversionRate d s = d) ∧
    (jsParseFloat (cleanNum s) = some 0 → parseConversionRate d s = d) := by
  by_cases hs : s = ""
  · subst hs
    have he : parseConversionRate d "" = d := by simp [parseConversionRate]
    rw [he]
    exact ⟨hd, fun _ => hd1, fun _ => rfl, fun _ => rfl⟩
  · cases hp : jsParseFloat (cleanNum s) with
    | none =>
        have he : parseConversionRate d s = d := by
          unfold parseConversionRate
          rw [if_neg hs, hp]
        rw [he]
        exact ⟨hd, fun _ => hd1, fun _ => rfl, fun hc => Option.noConfusion hc⟩
    | some num =>
        have hnn : 0 ≤ num := jsParseFloat_nonneg _ _ hp
        have he : parseConversionRate d s = crFromNum d num := by
          unfold parseConversionRate
          rw [if_neg hs, hp]
        rw [he]
        refine ⟨crFromNum_pos d num hd hnn, ?_, ?_, ?_⟩
        · intro hb
          exact crFromNum_le_one d num hd1 (hb num rfl)
        · intro hc
          exact Option.noConfusion hc
        · intro hc
          have h0 : num = 0 := Option.some.inj hc
          simp [crFromNum_eq, h0]

/-- C2 witness: the amended statement applied at default 1/2 and input "8". -/
theorem claim2_witness :
    0 < parseConversionRate (1/2) "8" ∧ parseConversionRate (1/2) "8" ≤ 1 := by
  have h := claim2_amended (1/2) "8" (by norm_num) (by norm_num)
  refine ⟨h.1, h.2.1 ?_⟩
  intro num hnum
  rw [show jsParseFloat (cleanNum "8") = some 8 from by decide] at hnum
  rw [← Option.some.inj hnum]
  norm_num

/-- Lower-case letters and digits, the character class `[a-z0-9]` of the
slug regexes. -/
def isAlnumLower (c : Char) : Bool :=
  (('a' ≤ c) && (c ≤ 'z')) || (('0' ≤ c) && (c ≤ '9'))

/-- The regex replacement `.replace(/[^a-z0-9]+/g, "-")`: every maximal
run of characters outside `[a-z0-9]` becomes a single hyphen.  The flag
records whether the scan is currently inside such a run. -/
def collapseAux : List Char → Bool → List Char
  | [], _ => []
  | c :: cs, inRun =>
    if isAlnumLower c then c :: collapseAux cs false
    else if inRun then collapseAux cs true
    else '-' :: collapseAux cs true

/-- The regex replacement `.replace(/^-+|-+$/g, "")`: drop leading and
trailing hyphen runs. -/
def trimHyphens (l : List Char) : List Char :=
  ((l.dropWhile (fun c => c == '-')).reverse.dropWhile (fun c => c == '-')).reverse

/-- Embedding of `slugify` (multi-tenant variant, server.js lines
162-167): lowercase, collapse runs of non-`[a-z0-9]` characters to a
hyphen, trim leading and trailing hyphens.  JavaScript `toLowerCase` is
modelled by `Char.toLower` per character, which agrees on the ASCII input
this service receives. -/
def slugify (s : String) : String :=
  ⟨trimHyphens (collapseAux (s.data.map Char.toLower) false)⟩

example : slugify "A & B" = "a-b" := by decide
example : slugify "  Acme  Fall!! " = "acme-fall" := by decide
example : slugify "" = "" := by decide

theorem mem_collapseAux (l : List Char) (b : Bool) (c : Char)
    (h : c ∈ collapseAux l b) : isAlnumLower c = true ∨ c = '-' := by
  induction l generalizing b with
  | nil => simp [collapseAux] at h
  | cons x xs ih =>
      unfold collapseAux at h
      by_cases hx : isAlnumLower x
      · rw [if_pos hx] at h
        rcases List.mem_cons.mp h with h1 | h1
        · exact Or.inl (h1 ▸ hx)
        · exact ih false h1
      · rw [if_neg hx] at h
        by_cases hb : b
        · rw [if_pos hb] at h
          exact ih true h
        · rw [if_neg hb] at h
          rcases List.mem_cons.mp h with h1 | h1
          · exact Or.inr h1
          · exact ih true h1

theorem mem_of_mem_dropWhileWd {α : Type} (p : α → Bool) (l : List α) (a : α)
    (h : a ∈ l.dropWhile p) : a ∈ l := by
  induction l with
  | nil => simp [List.dropWhile] at h
  | cons x xs ih =>
      rw [List.dropWhile_cons] at h
      by_cases hx : p x
      · simp only [hx, if_true] at h
        exact List.mem_cons_of_mem x (ih h)
      · simpa [hx] using h

theorem dropWhile_head_not {α : Type} (p : α → Bool) (l : List α) (c : α) (t : List α)
    (h : l.dropWhile p = c :: t) : p c = false := by
  induction l with
  | nil => simp [List.dropWhile] at h
  | cons x xs ih =>
      rw [List.dropWhile_cons] at h
      by_cases hx : p x
      · simp only [hx, if_true] at h
        exact ih h
      · simp only [hx, if_false] at h
        injection h with h1 h2
        rw [← h1]
        simpa using hx

theorem dropWhile_getLast_eq {α : Type} (p : α → Bool) (l : List α)
    (h : l.dropWhile p ≠ []) : (l.dropWhile p).getLast? = l.getLast? := by
  induction l with
  | nil => simp [List.dropWhile] at h
  | cons x xs ih =>
      rw [List.dropWhile_cons]
      by_cases hx : p x
      · rw [List.dropWhile_cons, if_pos hx] at h
        rw [if_pos hx, ih h]
        cases hxs : xs with
        | nil =>
            subst hxs
            simp [List.dropWhile] at h
        | cons y t =>
            rw [List.getLast?_cons_cons]
      · rw [if_neg hx]

theorem trimHyphens_mem (l : List Char) (c : Char) (h : c ∈ trimHyphens l) :
    c ∈ l := by
  unfold trimHyphens at h
  have h1 := mem_of_mem_dropWhileWd _ _ _ (List.mem_reverse.mp h)
  exact mem_of_mem_dropWhileWd _ _ _ (List.mem_reverse.mp h1)

theorem trimHyphens_head (l : List Char) (c : Char) (t : List Char)
    (h : trimHyphens l = c :: t) : (c == '-') = false := by
  unfold trimHyphens at h
  have h2 : ((l.dropWhile (fun c => c == '-')).reverse.dropWhile (fun c => c == '-')) ≠ [] := by
    intro hnil
    rw [hnil] at h
    exact absurd h (by simp)
  have hlast :
      ((l.dropWhile (fun c => c == '-')).reverse.dropWhile (fun c => c == '-')).getLast? =
        some c := by
    rw [← List.head?_reverse, h]
    rfl
  rw [dropWhile_getLast_eq _ _ h2, List.getLast?_reverse] at hlast
  cases hld : l.dropWhile (fun c => c == '-') with
  | nil => rw [hld] at hlast; exact absurd hlast (by simp)
  | cons y ys =>
      rw [hld] at hlast
      have hy : y = c := by simpa using hlast
      rw [← hy]
      exact dropWhile_head_not _ l y ys hld

theorem trimHyphens_getLast (l : List Char) (c : Char)
    (h : (trimHyphens l).getLast? = some c) : (c == '-') = false := by
  unfold trimHyphens at h
  rw [List.getLast?_reverse] at h
  cases hld : (l.dropWhile (fun c => c == '-')).reverse.dropWhile (fun c => c == '-') with
  | nil => rw [hld] at h; exact absurd h (by simp)
  | cons y ys =>
      rw [hld] at h
      have hy : y = c := by simpa using h
      rw [← hy]
      exact dropWhile_head_not _ _ y ys hld

/-- C7: the claim says `slugify` replaces `&` with the string `and`, so
that `"A & B"` normalizes to `"a-and-b"`; the code has no such
replacement and produces `"a-b"`. -/
theorem claim7_counterexample :
    slugify "A & B" = "a-b" ∧ slugify "A & B" ≠ "a-and-b" := by decide

/-- C7 (amended): `slugify` lowercases, collapses every run of characters
outside `[a-z0-9]` into a single hyphen and trims leading and trailing
hyphens, with no `&`-to-`and` replacement: every output character is a
lowercase alphanumeric or a hyphen, the output neither starts nor ends
with a hyphen, and `"A & B"` normalizes to `"a-b"`. -/
theorem claim7_amended (s : String) :
    (∀ c, c ∈ (slugify s).data → isAlnumLower c = true ∨ c = '-') ∧
    (∀ c t, (slugify s).data = c :: t → c ≠ '-') ∧
    (∀ c, (slugify s).data.getLast? = some c → c ≠ '-') ∧
    slugify "A & B" = "a-b" := by
  refine ⟨?_, ?_, ?_, by decide⟩
  · intro c hc
    exact mem_collapseAux _ false c (trimHyphens_mem _ c hc)
  · intro c t h
    have hb := trimHyphens_head _ c t h
    intro hc
    rw [hc] at hb
    simp at hb
  · intro c h
    have hb := trimHyphens_getLast _ c h
    intro hc
    rw [hc] at hb
    simp at hb

/-- C7 witness: the amended statement applied at the input "A & B". -/
theorem claim7_witness :
    (isAlnumLower 'a' = true ∨ 'a' = '-') ∧ 'a' ≠ '-' ∧ slugify "A & B" = "a-b" :=
  ⟨(claim7_amended "A & B").1 'a' (by decide),
   (claim7_amended "A & B").2.1 'a' ['-', 'b'] (by decide),
   (claim7_amended "A & B").2.2.2⟩

/-- A parsed URL: the part before the first `?` and the query key/value
pairs, the view of WHATWG `URL` that the redirect handlers use
(`searchParams.set` and `toString`). -/
structure URLRec where
  base : String
  params : List (String × String)
deriving DecidableEq

/-- Split a character list at every occurrence of `c`. -/
def splitOnChar (c : Char) : List Char → List (List Char)
  | [] => [[]]
  | x :: xs =>
    if x = c then [] :: splitOnChar c xs
    else
      match splitOnChar c xs with
      | [] => [[x]]
      | y :: ys => (x :: y) :: ys

/-- One `key=value` query segment; a segment without `=` is a key with an
empty value and an empty segment is skipped, as in `URLSearchParams`. -/
def parseKV (kv : List Char) : Option (String × String) :=
  if kv.isEmpty then none
  else
    match kv.dropWhile (fun c => !(c == '=')) with
    | [] => some (⟨kv⟩, "")
    | _ :: v => some (⟨kv.takeWhile (fun c => !(c == '='))⟩, ⟨v⟩)

def parseQueryParams (q : List Char) : List (String × String) :=
  (splitOnChar '&' q).filterMap parseKV

/-- Modelled platform primitive: the WHATWG `new URL(s)` constructor,
restricted to the hierarchical `scheme://...` URLs this service stores.
A string that does not start with an alphabetic scheme followed by `://`
and a nonempty remainder fails to parse (the constructor throws); the
query string after the first `?` is parsed into key/value pairs. -/
def parseURL (s : String) : Option URLRec :=
  match s.data.dropWhile Char.isAlpha with
  | ':' :: '/' :: '/' :: tail =>
      if (s.data.takeWhile Char.isAlpha).isEmpty || tail.isEmpty then none
      else
        some ⟨⟨s.data.takeWhile Char.isAlpha ++
                (':' :: '/' :: '/' :: tail.takeWhile (fun c => !(c == '?')))⟩,
              match tail.dropWhile (fun c => !(c == '?')) with
              | [] => []
              | _ :: qs => parseQueryParams qs⟩
  | _ => none

/-- Modelled platform primitive: `url.searchParams.set(k, v)` — replace
the value of an existing key, else append the pair.  (Duplicate keys do
not occur in the URLs this service builds.) -/
def setParam (ps : List (String × String)) (k v : String) : List (String × String) :=
  if ps.any (fun p => p.1 == k) then
    ps.map (fun p => if p.1 == k then (k, v) else p)
  else ps ++ [(k, v)]

/-- Modelled platform primitive: `url.toString()` for the view above. -/
def urlToString (u : URLRec) : String :=
  match u.params with
  | [] => u.base
  | _ => u.base ++ "?" ++ String.intercalate "&" (u.params.map (fun p => p.1 ++ "=" ++ p.2))

/-- Whether the query string of `url` carries the pair `k=v`. -/
def urlHasParam (url k v : String) : Bool :=
  match parseURL url with
  | some u => decide ((k, v) ∈ u.params)
  | none => false

example : parseURL "https://example.com/page" = some ⟨"https://example.com/page", []⟩ := by decide
example : parseURL "not a url" = none := by decide
example : parseURL "https://a.b/c?x=1&y=2" =
    some ⟨"https://a.b/c", [("x", "1"), ("y", "2")]⟩ := by decide
example : urlToString ⟨"https://a.b/c", [("x", "1"), ("y", "2")]⟩ = "https://a.b/c?x=1&y=2" := by
  decide

theorem mem_setParam_self (ps : List (String × String)) (k v : String) :
    (k, v) ∈ setParam ps k v := by
  unfold setParam
  by_cases h : ps.any (fun p => p.1 == k)
  · rw [if_pos h]
    obtain ⟨p, hp, hpk⟩ := List.any_eq_true.mp h
    have he : (fun p : String × String => if p.1 == k then (k, v) else p) p = (k, v) := by
      show (if p.1 == k then (k, v) else p) = (k, v)
      rw [if_pos hpk]
    exact List.mem_map.mpr ⟨p, hp, he⟩
  · rw [if_neg h]
    exact List.mem_append_right _ (List.mem_singleton.mpr rfl)

theorem mem_setParam_of_ne (ps : List (String × String)) (k v k1 v1 : String)
    (hne : k1 ≠ k) : ((k1, v1) ∈ setParam ps k v ↔ (k1, v1) ∈ ps) := by
  unfold setParam
  by_cases h : ps.any (fun p => p.1 == k)
  · rw [if_pos h]
    constructor
    · intro hm
      obtain ⟨p, hp, hpe⟩ := List.mem_map.mp hm
      by_cases hpk : (p.1 == k) = true
      · rw [if_pos hpk] at hpe
        exact absurd (congrArg Prod.fst hpe) (by simpa using hne.symm)
      · rw [if_neg hpk] at hpe
        exact hpe ▸ hp
    · intro hm
      refine List.mem_map.mpr ⟨(k1, v1), hm, ?_⟩
      rw [if_neg (by simpa using hne)]
  · rw [if_neg h]
    constructor
    · intro hm
      rcases List.mem_append.mp hm with h1 | h1
      · exact h1
      · exact absurd (congrArg Prod.fst (List.mem_singleton.mp h1)) (by simpa using hne)
    · intro hm
      exact List.mem_append_left _ hm

/-- The JS truthiness filter used for strings (`s || null`, `if (s)`):
`null`/`undefined` and the empty string are falsy. -/
def optTruthy : Option String → Option String
  | none => none
  | some s => if s = "" then none else some s

/-- A row of the single-tenant `links` table (`slug TEXT UNIQUE`, server.js
lines 873-882); `created_at` is an orthogonal timestamp column and is not
modelled. -/
structure LinkS where
  slug : String
  target : String
  partner : Option String
  campaign : Option String
  cr : Option ℚ
  aov : Option ℚ
deriving DecidableEq

/-- A row of the single-tenant `clicks` table (server.js lines 884-896);
`ts`, `ip_hash`, `ua`, `referer` and `user_session` are pass-through
client metadata columns never read by the logic under claim and are not
modelled. -/
structure ClickS where
  slug : String
  click_id : String
  utm_source : Option String
  utm_medium : Option String
  utm_campaign : Option String
deriving DecidableEq

/-- A row of the multi-tenant `links` table (`UNIQUE(user_id, slug)`,
server.js lines 39-51); `created_at` is not modelled. -/
structure LinkM where
  userId : ℕ
  slug : String
  target : String
  partner : Option String
  campaign : Option String
  cr : ℚ
  aov : ℚ
deriving DecidableEq

/-- A row of the multi-tenant `clicks` table (server.js lines 53-67); the
pass-through client metadata columns are not modelled. -/
structure ClickM where
  userId : ℕ
  slug : String
  click_id : String
deriving DecidableEq

/-- The HTTP responses the modelled handlers can produce.  `serverError`
is an exception escaping the handler: with no try/catch and no error
middleware, Express answers 500 and no redirect is sent. -/
inductive Response where
  | notFound
  | badRequest (msg : String)
  | redirect (code : ℕ) (url : String)
  | serverError
deriving DecidableEq

/-- A `GET /r/:slug` request: the path parameter and the optional UTM
query parameters. -/
structure RedirectReq where
  slug : String
  utm_source : Option String
  utm_medium : Option String
  utm_campaign : Option String

/-- `SELECT * FROM links WHERE slug = ?` (first row in insertion order). -/
def findLinkS (links : List LinkS) (slug : String) : Option LinkS :=
  links.find? (fun l => l.slug == slug)

/-- `SELECT * FROM links WHERE slug = ? LIMIT 1`: no user scoping, first
row in insertion order (server.js line 570). -/
def findLinkM (links : List LinkM) (slug : String) : Option LinkM :=
  links.find? (fun l => l.slug == slug)

/-- `if (utm_x) url.searchParams.set("utm_x", utm_x)` for one UTM key. -/
def addUtm (key : String) (o : Option String) (ps : List (String × String)) :
    List (String × String) :=
  match optTruthy o with
  | some v => setParam ps key v
  | none => ps

/-- Outgoing URL of the single-tenant redirect (server.js lines
1093-1097): parse the stored target, set `sb_click`, then forward each
present UTM parameter.  `none` models the `new URL` constructor
throwing. -/
def buildOutUrlS (row : LinkS) (req : RedirectReq) (cid : String) : Option URLRec :=
  match parseURL row.target with
  | none => none
  | some u =>
      some ⟨u.base,
        addUtm "utm_campaign" req.utm_campaign
          (addUtm "utm_medium" req.utm_medium
            (addUtm "utm_source" req.utm_source
              (setParam u.params "sb_click" cid)))⟩

/-- The click row the single-tenant handler inserts (server.js lines
1088-1091): the stored slug, the fresh click id, and `utm_x || null`. -/
def mkClickS (row : LinkS) (req : RedirectReq) (cid : String) : ClickS :=
  ⟨row.slug, cid, optTruthy req.utm_source, optTruthy req.utm_medium,
   optTruthy req.utm_campaign⟩

/-- Embedding of the single-tenant `GET /r/:slug` handler (server.js
lines 1082-1100).  `insertOk` is whether the synchronous click INSERT
succeeds; the handler has no try/catch, so a failed insert or a failed
`new URL(row.target)` escapes as an exception (`serverError`) — note the
click insert happens before the URL is built. -/
def handleRedirectS (links : List LinkS) (clicks : List ClickS)
    (req : RedirectReq) (cid : String) (insertOk : Bool) : Response × List ClickS :=
  match findLinkS links req.slug with
  | none => (Response.notFound, clicks)
  | some row =>
      if insertOk then
        match buildOutUrlS row req cid with
        | none => (Response.serverError, clicks ++ [mkClickS row req cid])
        | some u => (Response.redirect 302 (urlToString u), clicks ++ [mkClickS row req cid])
      else (Response.serverError, clicks)

/-- JavaScript `toUpperCase`, per ASCII character. -/
def upperStr (s : String) : String := ⟨s.data.map Char.toUpper⟩

/-- Outgoing URL of the multi-tenant redirect (server.js lines 587-591):
parse the stored target, set `partner` (upper-cased) when the link has a
partner, then set `sb_click`.  The inbound UTM query parameters are never
read. -/
def buildOutUrlM (row : LinkM) (cid : String) : Option URLRec :=
  match parseURL row.target with
  | none => none
  | some u =>
      some ⟨u.base,
        setParam
          (match optTruthy row.partner with
           | some p => setParam u.params "partner" (upperStr p)
           | none => u.params)
          "sb_click" cid⟩

/-- Embedding of the multi-tenant `GET /r/:slug` handler (server.js lines
568-593): unscoped slug lookup, click insert attributed to the found
row's owner, then redirect; no try/catch around the insert or the URL
constructor. -/
def handleRedirectM (links : List LinkM) (clicks : List ClickM)
    (req : RedirectReq) (cid : String) (insertOk : Bool) : Response × List ClickM :=
  match findLinkM links req.slug with
  | none => (Response.notFound, clicks)
  | some row =>
      if insertOk then
        match buildOutUrlM row cid with
        | none => (Response.serverError, clicks ++ [⟨row.userId, row.slug, cid⟩])
        | some u => (Response.redirect 302 (urlToString u), clicks ++ [⟨row.userId, row.slug, cid⟩])
      else (Response.serverError, clicks)

example :
    handleRedirectS [⟨"s", "https://example.com/page", none, none, none, none⟩] []
      ⟨"s", some "tw", none, some "fall"⟩ "cid" true =
    (Response.redirect 302 "https://example.com/page?sb_click=cid&utm_source=tw&utm_campaign=fall",
     [⟨"s", "cid", some "tw", none, some "fall"⟩]) := by decide

example :
    handleRedirectM [⟨1, "s", "https://example.com/page", some "acme", none, DEFAULT_CR, DEFAULT_AOV⟩] []
      ⟨"s", some "tw", none, none⟩ "cid" true =
    (Response.redirect 302 "https://example.com/page?partner=ACME&sb_click=cid",
     [⟨1, "s", "cid"⟩]) := by decide

example :
    handleRedirectS [⟨"s", "not a url", none, none, none, none⟩] []
      ⟨"s", none, none, none⟩ "cid" true =
    (Response.serverError, [⟨"s", "cid", none, none, none⟩]) := by decide

/-- Concrete single-tenant link used by witnesses. -/
def linkSC : LinkS := ⟨"s", "https://example.com/page", none, none, none, none⟩

/-- Concrete multi-tenant link used by witnesses. -/
def linkMC : LinkM := ⟨1, "s", "https://example.com/page", none, none, DEFAULT_CR, DEFAULT_AOV⟩

/-- Concrete single-tenant link with a malformed stored target. -/
def badLinkS : LinkS := ⟨"s", "not a url", none, none, none, none⟩

/-- Concrete multi-tenant link with a malformed stored target. -/
def badLinkM : LinkM := ⟨1, "s", "not a url", none, none, DEFAULT_CR, DEFAULT_AOV⟩

/-- C5: the claim says a failed click-recording write still yields the 302
redirect; in the code the synchronous insert has no try/catch, so the
handler escapes with an exception and no redirect is sent. -/
theorem claim5_counterexample :
    handleRedirectS [⟨"s", "https://example.com/page", none, none, none, none⟩] []
      ⟨"s", none, none, none⟩ "cid" false = (Response.serverError, []) ∧
    Response.serverError ≠
      Response.redirect 302 "https://example.com/page?sb_click=cid" := by decide

/-- C5 (amended): in both variants a failure of the click-recording write
prevents the redirect — the handler fails with an uncaught exception and
records nothing; the 302 is issued exactly when the write succeeds (and
the stored target parses). -/
theorem claim5_amended (linksS : List LinkS) (clicksS : List ClickS) (req : RedirectReq)
    (cid : String) (rowS : LinkS)
    (linksM : List LinkM) (clicksM : List ClickM) (reqM : RedirectReq) (rowM : LinkM)
    (hS : findLinkS linksS req.slug = some rowS)
    (hM : findLinkM linksM reqM.slug = some rowM) :
    handleRedirectS linksS clicksS req cid false = (Response.serverError, clicksS) ∧
    handleRedirectM linksM clicksM reqM cid false = (Response.serverError, clicksM) ∧
    (∀ u, buildOutUrlS rowS req cid = some u →
      handleRedirectS linksS clicksS req cid true =
        (Response.redirect 302 (urlToString u), clicksS ++ [mkClickS rowS req cid])) ∧
    (∀ u, buildOutUrlM rowM cid = some u →
      handleRedirectM linksM clicksM reqM cid true =
        (Response.redirect 302 (urlToString u), clicksM ++ [⟨rowM.userId, rowM.slug, cid⟩])) := by
  have heS : ∀ ok : Bool, handleRedirectS linksS clicksS req cid ok =
      (if ok then
        match buildOutUrlS rowS req cid with
        | none => (Response.serverError, clicksS ++ [mkClickS rowS req cid])
        | some u2 => (Response.redirect 302 (urlToString u2),
            clicksS ++ [mkClickS rowS req cid])
      else (Response.serverError, clicksS)) := by
    intro ok
    unfold handleRedirectS
    rw [hS]
  have heM : ∀ ok : Bool, handleRedirectM linksM clicksM reqM cid ok =
      (if ok then
        match buildOutUrlM rowM cid with
        | none => (Response.serverError, clicksM ++ [⟨rowM.userId, rowM.slug, cid⟩])
        | some u2 => (Response.redirect 302 (urlToString u2),
            clicksM ++ [⟨rowM.userId, rowM.slug, cid⟩])
      else (Response.serverError, clicksM)) := by
    intro ok
    unfold handleRedirectM
    rw [hM]
  refine ⟨?_, ?_, ?_, ?_⟩
  · rw [heS false]
    rfl
  · rw [heM false]
    rfl
  · intro u hu
    rw [heS true, if_pos rfl, hu]
  · intro u hu
    rw [heM true, if_pos rfl, hu]

/-- C5 witness: the amended statement applied to concrete one-link stores
in both variants. -/
theorem claim5_witness :
    handleRedirectS [linkSC] [] ⟨"s", none, none, none⟩ "cid" false =
      (Response.serverError, []) ∧
    handleRedirectM [linkMC] [] ⟨"s", none, none, none⟩ "cid" false =
      (Response.serverError, []) := by
  have h := claim5_amended [linkSC] [] ⟨"s", none, none, none⟩ "cid" linkSC
    [linkMC] [] ⟨"s", none, none, none⟩ linkMC (by decide) (by decide)
  exact ⟨h.1, h.2.1⟩

/-- C6: the claim says a malformed stored target is redirected to
verbatim; in the code `new URL(row.target)` throws and, with no
try/catch, the request fails — the click has already been recorded. -/
theorem claim6_counterexample :
    handleRedirectS [⟨"s", "not a url", none, none, none, none⟩] []
      ⟨"s", none, none, none⟩ "cid" true =
      (Response.serverError, [⟨"s", "cid", none, none, none⟩]) ∧
    Response.serverError ≠ Response.redirect 302 "not a url" := by decide

/-- C6 (amended): in both variants, when the stored target does not parse
as an absolute URL the handler errors instead of redirecting verbatim,
after having recorded the click. -/
theorem claim6_amended (links : List LinkS) (clicks : List ClickS) (req : RedirectReq)
    (cid : String) (row : LinkS)
    (linksM : List LinkM) (clicksM : List ClickM) (reqM : RedirectReq) (rowM : LinkM)
    (h : findLinkS links req.slug = some row) (hbad : parseURL row.target = none)
    (hM : findLinkM linksM reqM.slug = some rowM) (hbadM : parseURL rowM.target = none) :
    handleRedirectS links clicks req cid true =
      (Response.serverError, clicks ++ [mkClickS row req cid]) ∧
    handleRedirectM linksM clicksM reqM cid true =
      (Response.serverError, clicksM ++ [⟨rowM.userId, rowM.slug, cid⟩]) := by
  constructor
  · have hb : buildOutUrlS row req cid = none := by
      unfold buildOutUrlS
      rw [hbad]
    have he : handleRedirectS links clicks req cid true =
        (match buildOutUrlS row req cid with
         | none => (Response.serverError, clicks ++ [mkClickS row req cid])
         | some u2 => (Response.redirect 302 (urlToString u2),
             clicks ++ [mkClickS row req cid])) := by
      unfold handleRedirectS
      rw [h]
      rfl
    rw [he, hb]
  · have hb : buildOutUrlM rowM cid = none := by
      unfold buildOutUrlM
      rw [hbadM]
    have he : handleRedirectM linksM clicksM reqM cid true =
        (match buildOutUrlM rowM cid with
         | none => (Response.serverError, clicksM ++ [⟨rowM.userId, rowM.slug, cid⟩])
         | some u2 => (Response.redirect 302 (urlToString u2),
             clicksM ++ [⟨rowM.userId, rowM.slug, cid⟩])) := by
      unfold handleRedirectM
      rw [hM]
      rfl
    rw [he, hb]

/-- C6 witness: the amended statement applied to concrete stores holding
the malformed target "not a url" in both variants. -/
theorem claim6_witness :
    handleRedirectS [badLinkS] [] ⟨"s", none, none, none⟩ "cid" true =
      (Response.serverError, [⟨"s", "cid", none, none, none⟩]) ∧
    handleRedirectM [badLinkM] [] ⟨"s", none, none, none⟩ "cid" true =
      (Response.serverError, [⟨1, "s", "cid"⟩]) :=
  claim6_amended [badLinkS] [] ⟨"s", none, none, none⟩ "cid" badLinkS
    [badLinkM] [] ⟨"s", none, none, none⟩ badLinkM
    (by decide) (by decide) (by decide) (by decide)

theorem addUtm_preserve (key : String) (o : Option String) (ps : List (String × String))
    (k1 v1 : String) (hne : k1 ≠ key) :
    ((k1, v1) ∈ addUtm key o ps ↔ (k1, v1) ∈ ps) := by
  unfold addUtm
  cases optTruthy o with
  | none => exact Iff.rfl
  | some v => exact mem_setParam_of_ne ps key v k1 v1 hne

theorem addUtm_self (key : String) (o : Option String) (ps : List (String × String))
    (v : String) (h : optTruthy o = some v) : (key, v) ∈ addUtm key o ps := by
  unfold addUtm
  rw [h]
  exact mem_setParam_self ps key v

/-- C8: the claim says every inbound UTM parameter is forwarded onto the
outgoing URL; the multi-tenant handler never reads the inbound query
parameters, so an inbound `utm_source=x` does not appear on the outgoing
URL. -/
theorem claim8_counterexample :
    (handleRedirectM [⟨1, "s", "https://example.com/page", none, none, DEFAULT_CR, DEFAULT_AOV⟩]
        [] ⟨"s", some "x", none, none⟩ "cid" true).1 =
      Response.redirect 302 "https://example.com/page?sb_click=cid" ∧
    urlHasParam "https://example.com/page?sb_click=cid" "utm_source" "x" = false ∧
    urlHasParam "https://example.com/page?sb_click=cid" "sb_click" "cid" = true := by decide

/-- C8 (amended): the single-tenant redirect builds the outgoing URL from
the stored target by setting `sb_click` to the fresh click id and setting
each UTM parameter present on the inbound request; the multi-tenant
redirect only sets `partner` (upper-cased, when stored) and `sb_click`,
and forwards no inbound UTM parameter — any UTM pair on its outgoing URL
was already on the stored target. -/
theorem claim8_amended
    (req : RedirectReq) (cid : String) (rowS : LinkS) (u : URLRec)
    (rowM : LinkM) (um : URLRec)
    (h1 : parseURL rowS.target = some u)
    (h2 : parseURL rowM.target = some um) :
    (∃ ps, buildOutUrlS rowS req cid = some ⟨u.base, ps⟩ ∧
       ("sb_click", cid) ∈ ps ∧
       (∀ v, optTruthy req.utm_source = some v → ("utm_source", v) ∈ ps) ∧
       (∀ v, optTruthy req.utm_medium = some v → ("utm_medium", v) ∈ ps) ∧
       (∀ v, optTruthy req.utm_campaign = some v → ("utm_campaign", v) ∈ ps)) ∧
    (∃ ps, buildOutUrlM rowM cid = some ⟨um.base, ps⟩ ∧
       ("sb_click", cid) ∈ ps ∧
       (∀ v, ("utm_source", v) ∈ ps → ("utm_source", v) ∈ um.params) ∧
       (∀ v, ("utm_medium", v) ∈ ps → ("utm_medium", v) ∈ um.params) ∧
       (∀ v, ("utm_campaign", v) ∈ ps → ("utm_campaign", v) ∈ um.params)) := by
  constructor
  · refine ⟨addUtm "utm_campaign" req.utm_campaign
        (addUtm "utm_medium" req.utm_medium
          (addUtm "utm_source" req.utm_source
            (setParam u.params "sb_click" cid))), ?_, ?_, ?_, ?_, ?_⟩
    · unfold buildOutUrlS
      rw [h1]
    · exact (addUtm_preserve _ _ _ _ _ (by decide)).mpr
        ((addUtm_preserve _ _ _ _ _ (by decide)).mpr
          ((addUtm_preserve _ _ _ _ _ (by decide)).mpr
            (mem_setParam_self _ _ _)))
    · intro v hv
      exact (addUtm_preserve _ _ _ _ _ (by decide)).mpr
        ((addUtm_preserve _ _ _ _ _ (by decide)).mpr
          (addUtm_self _ _ _ v hv))
    · intro v hv
      exact (addUtm_preserve _ _ _ _ _ (by decide)).mpr (addUtm_self _ _ _ v hv)
    · intro v hv
      exact addUtm_self _ _ _ v hv
  · cases hp : optTruthy rowM.partner with
    | none =>
        refine ⟨setParam um.params "sb_click" cid, ?_, mem_setParam_self _ _ _, ?_, ?_, ?_⟩
        · unfold buildOutUrlM
          rw [h2, hp]
        · intro v hv
          exact (mem_setParam_of_ne um.params "sb_click" cid "utm_source" v (by decide)).mp hv
        · intro v hv
          exact (mem_setParam_of_ne um.params "sb_click" cid "utm_medium" v (by decide)).mp hv
        · intro v hv
          exact (mem_setParam_of_ne um.params "sb_click" cid "utm_campaign" v (by decide)).mp hv
    | some p =>
        refine ⟨setParam (setParam um.params "partner" (upperStr p)) "sb_click" cid, ?_,
          mem_setParam_self _ _ _, ?_, ?_, ?_⟩
        · unfold buildOutUrlM
          rw [h2, hp]
        · intro v hv
          have h3 := (mem_setParam_of_ne _ "sb_click" cid "utm_source" v (by decide)).mp hv
          exact (mem_setParam_of_ne um.params "partner" (upperStr p) "utm_source" v
            (by decide)).mp h3
        · intro v hv
          have h3 := (mem_setParam_of_ne _ "sb_click" cid "utm_medium" v (by decide)).mp hv
          exact (mem_setParam_of_ne um.params "partner" (upperStr p) "utm_medium" v
            (by decide)).mp h3
        · intro v hv
          have h3 := (mem_setParam_of_ne _ "sb_click" cid "utm_campaign" v (by decide)).mp hv
          exact (mem_setParam_of_ne um.params "partner" (upperStr p) "utm_campaign" v
            (by decide)).mp h3

/-- C8 witness: the amended statement applied to the concrete stored
target "https://example.com/page" with inbound utm_source=x and
utm_campaign=fall. -/
theorem claim8_witness :
    ∃ ps, buildOutUrlS linkSC ⟨"s", some "x", none, some "fall"⟩ "cid" =
        some ⟨"https://example.com/page", ps⟩ ∧
      ("sb_click", "cid") ∈ ps ∧ ("utm_source", "x") ∈ ps ∧ ("utm_campaign", "fall") ∈ ps := by
  obtain ⟨ps, hps, hsb, hsrc, hmed, hcamp⟩ :=
    (claim8_amended ⟨"s", some "x", none, some "fall"⟩ "cid" linkSC
      ⟨"https://example.com/page", []⟩ linkMC ⟨"https://example.com/page", []⟩
      (by decide) (by decide)).1
  exact ⟨ps, hps, hsb, hsrc "x" (by decide), hcamp "fall" (by decide)⟩

/-- JavaScript `String.prototype.trim`: drop leading and trailing
whitespace. -/
def jsTrim (s : String) : String :=
  ⟨((s.data.dropWhile Char.isWhitespace).reverse.dropWhile Char.isWhitespace).reverse⟩

/-- The guard `if (partner && partner.trim())` of the multi-tenant
create-link handler. -/
def partnerTruthyTrim (p : Option String) : Bool :=
  match p with
  | none => false
  | some s => !(s == "") && !(jsTrim s == "")

/-- Base slug derivation of the multi-tenant `POST /admin/links`
(server.js lines 420-427): partner(+campaign) slugs when a partner is
given, else the campaign slug, else `link-<nanoid>` (the random id is the
`fallbackId` argument). -/
def baseSlugM (partner campaign : Option String) (fallbackId : String) : String :=
  if partnerTruthyTrim partner then
    let ps := slugify (partner.getD "")
    let cs := match optTruthy campaign with
              | some c => slugify c
              | none => ""
    if cs = "" then ps else ps ++ "-" ++ cs
  else
    match optTruthy campaign with
    | some c => slugify c
    | none => "link-" ++ fallbackId

/-- The case-insensitive test `/^https?:\/\//i.test(targetUrl)`. -/
def hasHttpScheme (s : String) : Bool :=
  List.isPrefixOf "http://".data (s.data.map Char.toLower) ||
  List.isPrefixOf "https://".data (s.data.map Char.toLower)

/-- Target normalization of the multi-tenant create (server.js lines
417-418): trim, then prepend `https://` when nonempty without a scheme.
There is no emptiness or validity check beyond this. -/
def normalizeTargetM (t : Option String) : String :=
  if !(jsTrim (t.getD "") == "") && !(hasHttpScheme (jsTrim (t.getD ""))) then
    "https://" ++ jsTrim (t.getD "")
  else jsTrim (t.getD "")

/-- `SELECT id FROM links WHERE user_id = ? AND slug = ?` as an existence
test. -/
def slugExistsM (links : List LinkM) (uid : ℕ) (s : String) : Bool :=
  links.any (fun l => l.userId == uid && l.slug == s)

/-- Modelled platform behaviour: a plain `INSERT` against
`UNIQUE(user_id, slug)` — SQLite refuses a duplicate pair with a
constraint error (which the handler catches as a 400), otherwise the row
is appended. -/
def insertLinkM (links : List LinkM) (l : LinkM) : Except String (List LinkM) :=
  if slugExistsM links l.userId l.slug then
    Except.error "UNIQUE constraint failed: links.user_id, links.slug"
  else Except.ok (links ++ [l])

/-- The slug pre-check loop of the multi-tenant create (server.js lines
429-435): while the candidate exists, increment `attempt`, draw a fresh
random suffix, and break once `attempt > 10` — the final candidate is
returned without rechecking.  `rand j` is the j-th `nanoid().slice(0,4)`
draw.  From the initial state (`attempt = 0`) at most 10 recursive steps
happen before the break, so the structural `fuel` of 11 used by
`pickSlug` never reaches the fuel-out arm (which mirrors the break). -/
def pickSlugAux (links : List LinkM) (uid : ℕ) (base : String) (rand : ℕ → String) :
    ℕ → ℕ → String → String
  | fuel, attempt, current =>
    if slugExistsM links uid current then
      if attempt + 1 > 10 then base ++ "-" ++ rand attempt
      else
        match fuel with
        | 0 => base ++ "-" ++ rand attempt
        | f + 1 => pickSlugAux links uid base rand f (attempt + 1) (base ++ "-" ++ rand attempt)
    else current

def pickSlug (links : List LinkM) (uid : ℕ) (base : String) (rand : ℕ → String) : String :=
  pickSlugAux links uid base rand 11 0 base

/-- The row the multi-tenant create inserts (server.js lines 441-442). -/
def newLinkM (links : List LinkM) (uid : ℕ)
    (target partner campaign cr aov : Option String) (rand : ℕ → String) (fid : String) :
    LinkM :=
  ⟨uid, pickSlug links uid (baseSlugM partner campaign fid) rand, normalizeTargetM target,
   optTruthy partner, optTruthy campaign,
   parseConversionRate DEFAULT_CR (cr.getD ""), parseMoney DEFAULT_AOV (aov.getD "")⟩

/-- Embedding of the multi-tenant `POST /admin/links` handler (server.js
lines 414-455): normalize the target (no required-target check), derive
and de-duplicate the slug, insert; a constraint error is caught and
answered with `400 Error: <message>`, success redirects to `/`. -/
def createLinkM (links : List LinkM) (uid : ℕ)
    (target partner campaign cr aov : Option String) (rand : ℕ → String) (fid : String) :
    Response × List LinkM :=
  match insertLinkM links (newLinkM links uid target partner campaign cr aov rand fid) with
  | Except.ok links2 => (Response.redirect 302 "/", links2)
  | Except.error e => (Response.badRequest ("Error: " ++ e), links)

/-- Remove the first occurrence of a character: `replace("%", "")`. -/
def removeFirstChar (c : Char) : List Char → List Char
  | [] => []
  | x :: xs => if x = c then xs else x :: removeFirstChar c xs

/-- Modelled platform primitive: JavaScript `Number(s)` on the sign-less
decimal fragment — `""` is 0, a string of digits with at most one dot is
its value, anything else (as produced by the inputs this service
handles) is NaN (`none`). -/
def jsNumber (s : String) : Option ℚ :=
  if s = "" then some 0
  else if s.data.all (fun c => c.isDigit || c == '.') ∧
          (s.data.filter (fun c => c == '.')).length ≤ 1 ∧
          s.data.any Char.isDigit then
    jsParseFloat s.data
  else none

def strEndsWith (s suf : String) : Bool := List.isSuffixOf suf.data s.data

/-- Embedding of `parseCR` (single-tenant variant, server.js lines
975-988): null/empty input is `null`; otherwise trim, lowercase, drop the
first `%`; a string containing a dot is taken at face value, else a value
of at least 1 is divided by 100.  (The `typeof v === "number"` arm is not
modelled: Express form bodies are strings.  The two `Number(s)` calls of
the source on the same `s` are merged.) -/
def parseCR (v : Option String) : Option ℚ :=
  match v with
  | none => none
  | some str =>
    if str = "" then none
    else
      let s : String := ⟨removeFirstChar '%' ((jsTrim str).data.map Char.toLower)⟩
      match jsNumber s with
      | none => none
      | some n =>
        if s.data.contains '.' then
          if strEndsWith s "%" then some (qDiv100 n) else some n
        else if 1 ≤ n then some (qDiv100 n) else some n

/-- Embedding of `parseAOV` (single-tenant variant, server.js lines
989-995): null/empty is `null`, else trim, drop one leading `$`, and
parse with `Number`. -/
def parseAOV (v : Option String) : Option ℚ :=
  match v with
  | none => none
  | some str =>
    if str = "" then none
    else
      jsNumber ⟨match (jsTrim str).data with
                | '$' :: xs => xs
                | xs => xs⟩

/-- The regex replacement `.replace(/\s+/g, "-")` on a lowercased string:
every whitespace run becomes one hyphen. -/
def replaceWsAux : List Char → Bool → List Char
  | [], _ => []
  | c :: cs, inRun =>
    if c.isWhitespace then
      if inRun then replaceWsAux cs true
      else '-' :: replaceWsAux cs true
    else c :: replaceWsAux cs false

def lowerWsSlug (s : String) : String := ⟨replaceWsAux (s.data.map Char.toLower) false⟩

/-- Modelled platform behaviour: `INSERT OR REPLACE` against the UNIQUE
slug column — SQLite deletes the conflicting row and inserts the new one
under a fresh rowid (so it appears last in scan order). -/
def insertOrReplaceS (links : List LinkS) (l : LinkS) : List LinkS :=
  (links.filter (fun x => !(x.slug == l.slug))) ++ [l]

/-- Embedding of the single-tenant `POST /admin/links` handler (server.js
lines 1057-1079): reject a falsy target with `400 Missing target URL`;
otherwise prepend `https://` unless the trimmed target starts with
`http`, build `partner-campaign` slug (lowercase, whitespace runs to
hyphens, then keep only `[a-z0-9-]` and cut to 40 chars), and
`INSERT OR REPLACE`. -/
def createLinkS (links : List LinkS)
    (target partner campaign cr aov : Option String) : Response × List LinkS :=
  match optTruthy target with
  | none => (Response.badRequest "Missing target URL", links)
  | some t =>
    let tt := jsTrim t
    let cleanTarget := if List.isPrefixOf "http".data tt.data then tt else "https://" ++ tt
    let rawSlug := lowerWsSlug ((optTruthy partner).getD "self") ++ "-" ++
                   lowerWsSlug ((optTruthy campaign).getD "link")
    let safeSlug : String := ⟨(rawSlug.data.filter (fun c => isAlnumLower c || c == '-')).take 40⟩
    (Response.redirect 302 "/",
     insertOrReplaceS links
       ⟨safeSlug, cleanTarget, optTruthy partner, optTruthy campaign, parseCR cr, parseAOV aov⟩)

example : parseCR (some "1%") = some (mkRat 1 100) := by decide
example : parseCR (some "0.8") = some (mkRat 8 10) := by decide
example : parseCR (some "2") = some (mkRat 2 100) := by decide
example : parseAOV (some "$45") = some 45 := by decide
example : createLinkS [] (some "example.com/page") (some "acme") (some "fall") none none =
    (Response.redirect 302 "/",
     [⟨"acme-fall", "https://example.com/page", some "acme", some "fall", none, none⟩]) := by
  decide

/-- The invariant the `UNIQUE(user_id, slug)` constraint maintains: no two
rows share an owner and a slug. -/
def goodStoreM (links : List LinkM) : Prop :=
  links.Pairwise (fun a b => a.userId ≠ b.userId ∨ a.slug ≠ b.slug)

theorem slugExistsM_false (links : List LinkM) (uid : ℕ) (s : String)
    (h : slugExistsM links uid s = false) (l : LinkM) (hl : l ∈ links) :
    l.userId ≠ uid ∨ l.slug ≠ s := by
  by_contra hcon
  push_neg at hcon
  have ht : slugExistsM links uid s = true :=
    List.any_eq_true.mpr ⟨l, hl, by simp [hcon.1, hcon.2]⟩
  rw [h] at ht
  exact Bool.noConfusion ht

/-- Whenever the base candidate already exists, every slug the pre-check
loop can return is the base followed by a hyphen and one of the random
suffixes (with any fuel). -/
theorem pickSlugAux_suffixed (links : List LinkM) (uid : ℕ) (base : String)
    (rand : ℕ → String) (fuel : ℕ) :
    ∀ attempt current, slugExistsM links uid current = true →
      ∃ j, pickSlugAux links uid base rand fuel attempt current = base ++ "-" ++ rand j := by
  induction fuel with
  | zero =>
      intro attempt current h
      unfold pickSlugAux
      rw [if_pos h]
      by_cases ha : attempt + 1 > 10
      · rw [if_pos ha]; exact ⟨attempt, rfl⟩
      · rw [if_neg ha]; exact ⟨attempt, rfl⟩
  | succ f ih =>
      intro attempt current h
      unfold pickSlugAux
      rw [if_pos h]
      by_cases ha : attempt + 1 > 10
      · rw [if_pos ha]; exact ⟨attempt, rfl⟩
      · rw [if_neg ha]
        by_cases hnext : slugExistsM links uid (base ++ "-" ++ rand attempt) = true
        · obtain ⟨j, hj⟩ := ih (attempt + 1) (base ++ "-" ++ rand attempt) hnext
          exact ⟨j, hj⟩
        · refine ⟨attempt, ?_⟩
          show pickSlugAux links uid base rand f (attempt + 1) (base ++ "-" ++ rand attempt) =
            base ++ "-" ++ rand attempt
          unfold pickSlugAux
          rw [if_neg hnext]

/-- The multi-tenant create either hits the unique constraint (400, store
unchanged) or appends the derived row whose (owner, slug) pair was
free. -/
theorem createLinkM_spec (links : List LinkM) (uid : ℕ)
    (target partner campaign cr aov : Option String) (rand : ℕ → String) (fid : String) :
    (slugExistsM links uid (newLinkM links uid target partner campaign cr aov rand fid).slug
        = true ∧
      createLinkM links uid target partner campaign cr aov rand fid =
        (Response.badRequest
          ("Error: " ++ "UNIQUE constraint failed: links.user_id, links.slug"), links)) ∨
    (slugExistsM links uid (newLinkM links uid target partner campaign cr aov rand fid).slug
        = false ∧
      createLinkM links uid target partner campaign cr aov rand fid =
        (Response.redirect 302 "/",
         links ++ [newLinkM links uid target partner campaign cr aov rand fid])) := by
  by_cases h : slugExistsM links uid
      (newLinkM links uid target partner campaign cr aov rand fid).slug = true
  · left
    refine ⟨h, ?_⟩
    unfold createLinkM insertLinkM
    rw [show (newLinkM links uid target partner campaign cr aov rand fid).userId = uid from rfl,
        if_pos h]
  · right
    have hf : slugExistsM links uid
        (newLinkM links uid target partner campaign cr aov rand fid).slug = false :=
      Bool.eq_false_iff.mpr h
    refine ⟨hf, ?_⟩
    unfold createLinkM insertLinkM
    rw [show (newLinkM links uid target partner campaign cr aov rand fid).userId = uid from rfl,
        if_neg h]

/-- Concrete single-tenant rows for the C3 counterexample. -/
def linkA : LinkS := ⟨"acme-fall", "https://a.example/x", some "acme", some "fall", none, none⟩

def linkB : LinkS := ⟨"acme-fall", "https://b.example", some "acme", some "fall", none, none⟩

/-- C3: the claim says a second create with the same derived slug never
silently replaces an existing record; the single-tenant variant uses
`INSERT OR REPLACE`, so a second create for partner acme, campaign fall
succeeds with a 302 and the original record is gone. -/
theorem claim3_counterexample :
    createLinkS [linkA] (some "b.example") (some "acme") (some "fall") none none =
      (Response.redirect 302 "/", [linkB]) ∧
    linkA ∉ (createLinkS [linkA] (some "b.example") (some "acme") (some "fall") none none).2 := by
  decide

/-- C3 (amended): in the multi-tenant variant the claim holds — existing
rows are never removed, the per-owner uniqueness invariant is preserved,
and when the derived base slug is taken the request either fails with a
400 constraint error leaving the store unchanged or inserts under a
random-suffixed (hence different) slug.  In the single-tenant variant
`INSERT OR REPLACE` silently replaces the record with the same slug. -/
theorem claim3_amended (links : List LinkM) (uid : ℕ)
    (target partner campaign cr aov : Option String) (rand : ℕ → String) (fid : String) :
    (∀ l, l ∈ links → l ∈ (createLinkM links uid target partner campaign cr aov rand fid).2) ∧
    (goodStoreM links →
      goodStoreM (createLinkM links uid target partner campaign cr aov rand fid).2) ∧
    (slugExistsM links uid (baseSlugM partner campaign fid) = true →
      (∃ msg, (createLinkM links uid target partner campaign cr aov rand fid).1 =
          Response.badRequest msg ∧
        (createLinkM links uid target partner campaign cr aov rand fid).2 = links) ∨
      (∃ j nl,
        (createLinkM links uid target partner campaign cr aov rand fid).2 = links ++ [nl] ∧
        nl.slug = baseSlugM partner campaign fid ++ "-" ++ rand j ∧
        nl.slug ≠ baseSlugM partner campaign fid)) := by
  rcases createLinkM_spec links uid target partner campaign cr aov rand fid with
    ⟨hex, heq⟩ | ⟨hex, heq⟩
  · rw [heq]
    exact ⟨fun l hl => hl, fun hg => hg, fun _ => Or.inl ⟨_, rfl, rfl⟩⟩
  · rw [heq]
    refine ⟨fun l hl => List.mem_append_left _ hl, ?_, ?_⟩
    · intro hg
      rw [goodStoreM, List.pairwise_append]
      refine ⟨hg, List.pairwise_singleton _ _, ?_⟩
      intro a ha b hb
      rw [List.mem_singleton] at hb
      subst hb
      exact slugExistsM_false links uid _ hex a ha
    · intro hbase
      right
      obtain ⟨j, hj⟩ := pickSlugAux_suffixed links uid (baseSlugM partner campaign fid) rand
        11 0 (baseSlugM partner campaign fid) hbase
      have hsl : (newLinkM links uid target partner campaign cr aov rand fid).slug =
          pickSlugAux links uid (baseSlugM partner campaign fid) rand 11 0
            (baseSlugM partner campaign fid) := rfl
      refine ⟨j, newLinkM links uid target partner campaign cr aov rand fid, rfl, hj, ?_⟩
      rw [hsl, hj]
      intro hcontra
      have hlen := congrArg String.length hcontra
      rw [String.length_append, String.length_append] at hlen
      have h1 : ("-" : String).length = 1 := rfl
      omega

/-- Concrete multi-tenant store and suffix source for the C3 witness. -/
def linksW : List LinkM :=
  [⟨1, "acme", "https://t.example/", some "acme", none, DEFAULT_CR, DEFAULT_AOV⟩]

def rndW : ℕ → String := fun _ => "zzzz"

/-- C3 witness: the amended statement applied to a store already owning
the slug "acme" for user 1. -/
theorem claim3_witness :
    slugExistsM linksW 1 (baseSlugM (some "acme") none "fid") = true ∧
    goodStoreM ((createLinkM linksW 1 (some "https://x.example/") (some "acme") none
        none none rndW "fid").2) ∧
    ((∃ msg, (createLinkM linksW 1 (some "https://x.example/") (some "acme") none
          none none rndW "fid").1 = Response.badRequest msg ∧
        (createLinkM linksW 1 (some "https://x.example/") (some "acme") none
          none none rndW "fid").2 = linksW) ∨
     (∃ j nl, (createLinkM linksW 1 (some "https://x.example/") (some "acme") none
          none none rndW "fid").2 = linksW ++ [nl] ∧
        nl.slug = baseSlugM (some "acme") none "fid" ++ "-" ++ rndW j ∧
        nl.slug ≠ baseSlugM (some "acme") none "fid")) := by
  have h := claim3_amended linksW 1 (some "https://x.example/") (some "acme") none
    none none rndW "fid"
  exact ⟨by decide, h.2.1 (List.pairwise_singleton _ _), h.2.2 (by decide)⟩

/-- C4: the multi-tenant `POST /admin/links` performs no server-side
check of the target: with the target absent it inserts a link whose
target is the empty string and answers 302, where the claim (and the
single-tenant variant, which rejects with `400 Missing target URL`)
requires a 400 with no record created. -/
theorem claim4_bug :
    createLinkM [] 1 none (some "acme") (some "fall") none none rndW "fid" =
      (Response.redirect 302 "/",
       [⟨1, "acme-fall", "", some "acme", some "fall", DEFAULT_CR, DEFAULT_AOV⟩]) ∧
    createLinkS [] none (some "acme") (some "fall") none none =
      (Response.badRequest "Missing target URL", []) := by decide

/-- Rational multiplication written so that it evaluates by kernel
reduction; `qMul_eq` shows it is plain multiplication. -/
def qMul (a b : ℚ) : ℚ := mkRat (a.num * b.num) (a.den * b.den)

theorem qMul_eq (a b : ℚ) : qMul a b = a * b := by
  rw [qMul, mkRat_div_eq]
  push_cast
  conv_rhs => rw [← Rat.num_div_den a, ← Rat.num_div_den b]
  rw [div_mul_div_comm]

/-- Modelled platform primitive: SQLite `ROUND(x, 2)` for the nonnegative
values this service aggregates — round half up at two decimals,
`floor(100 x + 1/2)/100`, written with reducible integer arithmetic;
`round2_eq` gives the floor form. -/
def round2 (q : ℚ) : ℚ := mkRat ((200 * q.num + (q.den : ℤ)) / (2 * (q.den : ℤ))) 100

theorem round2_eq (q : ℚ) : round2 q = ((⌊q * 100 + 1/2⌋ : ℤ) : ℚ) / 100 := by
  have hden : ((q.den : ℚ)) ≠ 0 := Nat.cast_ne_zero.mpr q.den_nz
  have hq : q * 100 + 1/2 =
      ((200 * q.num + (q.den : ℤ) : ℤ) : ℚ) / ((2 * q.den : ℕ) : ℚ) := by
    conv_lhs => rw [← Rat.num_div_den q]
    push_cast
    field_simp
    ring
  rw [round2, hq, Rat.floor_intCast_div_natCast, mkRat_div_eq]
  push_cast
  ring

example : round2 (mkRat 8 1000) = mkRat 1 100 := by decide
example : round2 (mkRat 9 25) = mkRat 9 25 := by decide

/-- A row of the `bySlug` aggregation in the single-tenant `GET /admin`
(server.js lines 1125-1136): slug, partner, campaign, click count,
coalesced assumptions, and the two rounded estimates. -/
structure EstRow where
  slug : String
  partner : Option String
  campaign : Option String
  clicks : ℕ
  cr : ℚ
  aov : ℚ
  est_sales : ℚ
  est_rev : ℚ
deriving DecidableEq

/-- `COUNT(c.id)` of the LEFT JOIN `clicks c ON c.slug = l.slug`: the
number of click rows carrying this slug (0 when none match). -/
def clickCountS (clicks : List ClickS) (slug : String) : ℕ :=
  (clicks.filter (fun c => c.slug == slug)).length

/-- One aggregation row for one link: `COALESCE(l.cr, ?)` /
`COALESCE(l.aov, ?)` are `getD` of the defaults, `est_sales =
ROUND(COUNT * cr, 2)` and `est_rev = ROUND(COUNT * cr * aov, 2)`. -/
def estRow (dCR dAOV : ℚ) (clicks : List ClickS) (l : LinkS) : EstRow :=
  ⟨l.slug, l.partner, l.campaign, clickCountS clicks l.slug,
   l.cr.getD dCR, l.aov.getD dAOV,
   round2 (qMul ((clickCountS clicks l.slug : ℕ) : ℚ) (l.cr.getD dCR)),
   round2 (qMul (qMul ((clickCountS clicks l.slug : ℕ) : ℚ) (l.cr.getD dCR)) (l.aov.getD dAOV))⟩

/-- `ORDER BY clicks DESC`. -/
def clicksGE (a b : EstRow) : Prop := b.clicks ≤ a.clicks

instance : DecidableRel clicksGE := fun a b => Nat.decLe b.clicks a.clicks

instance : IsTotal EstRow clicksGE := ⟨fun a b => Nat.le_total b.clicks a.clicks⟩

instance : IsTrans EstRow clicksGE := ⟨fun _ _ _ hab hbc => le_trans hbc hab⟩

/-- Embedding of the `bySlug` aggregation query of the single-tenant
`GET /admin` (server.js lines 1125-1136): one row per link (`GROUP BY
l.slug` over the UNIQUE slug column), ordered by click count
descending. -/
def estimateBySlug (dCR dAOV : ℚ) (links : List LinkS) (clicks : List ClickS) : List EstRow :=
  List.insertionSort clicksGE (links.map (estRow dCR dAOV clicks))

/-- Concrete store for the C9 counterexample: one link on the process
defaults with a single click. -/
def linkR : LinkS := ⟨"s", "https://t.example/", none, none, none, none⟩

def oneClickR : List ClickS := [⟨"s", "c1", none, none, none⟩]

/-- C9: the claim says estimatedSales = clickCount x conversionRate and
estimatedRevenue = estimatedSales x averageOrderValue; the query rounds
both products to 2 decimals (ROUND(x,2)), so with the default rate 0.008
and one click the reported sales are 0.01, not 0.008, and the reported
revenue 0.36 is computed from the unrounded product, not 0.01 x 45. -/
theorem claim9_counterexample :
    estimateBySlug DEFAULT_CR DEFAULT_AOV [linkR] oneClickR =
      [⟨"s", none, none, 1, DEFAULT_CR, DEFAULT_AOV, mkRat 1 100, mkRat 9 25⟩] ∧
    ¬ (mkRat 1 100 : ℚ) = 1 * DEFAULT_CR ∧
    ¬ (mkRat 9 25 : ℚ) = mkRat 1 100 * DEFAULT_AOV := by
  refine ⟨by decide, ?_, ?_⟩
  · rw [mkRat_div_eq, DEFAULT_CR_eq]
    norm_num
  · rw [mkRat_div_eq, mkRat_div_eq, show DEFAULT_AOV = (45 : ℚ) from rfl]
    norm_num

/-- C9 (amended): the aggregation emits, per link, the click count of the
link's slug, the coalesced assumptions, estimatedSales = clickCount x
conversionRate rounded to 2 decimals, and estimatedRevenue = clickCount x
conversionRate x averageOrderValue rounded to 2 decimals (from the
unrounded product); rows are ordered by click count descending. -/
theorem claim9_amended (dCR dAOV : ℚ) (links : List LinkS) (clicks : List ClickS) :
    List.Sorted clicksGE (estimateBySlug dCR dAOV links clicks) ∧
    (estimateBySlug dCR dAOV links clicks).Perm (links.map (estRow dCR dAOV clicks)) ∧
    (∀ r, r ∈ estimateBySlug dCR dAOV links clicks →
      r.est_sales = round2 ((r.clicks : ℚ) * r.cr) ∧
      r.est_rev = round2 ((r.clicks : ℚ) * r.cr * r.aov) ∧
      ∃ l, l ∈ links ∧ r.slug = l.slug ∧ r.clicks = clickCountS clicks l.slug ∧
        r.cr = l.cr.getD dCR ∧ r.aov = l.aov.getD dAOV) := by
  refine ⟨List.sorted_insertionSort _ _, List.perm_insertionSort _ _, ?_⟩
  intro r hr
  have hr2 : r ∈ links.map (estRow dCR dAOV clicks) :=
    (List.perm_insertionSort clicksGE _).mem_iff.mp hr
  obtain ⟨l, hl, hle⟩ := List.mem_map.mp hr2
  subst hle
  refine ⟨?_, ?_, l, hl, rfl, rfl, rfl, rfl⟩
  · show round2 (qMul ((clickCountS clicks l.slug : ℕ) : ℚ) (l.cr.getD dCR)) = _
    rw [qMul_eq]
    rfl
  · show round2 (qMul (qMul ((clickCountS clicks l.slug : ℕ) : ℚ) (l.cr.getD dCR))
      (l.aov.getD dAOV)) = _
    rw [qMul_eq, qMul_eq]
    rfl

/-- Concrete instance from the claim: conversionRate 0.01, order value
50, 10 recorded clicks. -/
def linkT : LinkS := ⟨"s", "https://t.example/", none, none, some (mkRat 1 100), some 50⟩

def clicksT : List ClickS := List.replicate 10 ⟨"s", "c", none, none, none⟩

def rowT : EstRow := ⟨"s", none, none, 10, mkRat 1 100, 50, mkRat 1 10, 5⟩

/-- C9 witness: the amended statement applied to the claim's instance —
the emitted row has estimatedSales 0.10 and estimatedRevenue 5.00. -/
theorem claim9_witness :
    rowT ∈ estimateBySlug DEFAULT_CR DEFAULT_AOV [linkT] clicksT ∧
    rowT.est_sales = round2 ((rowT.clicks : ℚ) * rowT.cr) ∧
    rowT.est_rev = round2 ((rowT.clicks : ℚ) * rowT.cr * rowT.aov) ∧
    rowT.est_sales = 1/10 ∧ rowT.est_rev = 5 ∧ rowT.clicks = 10 := by
  have hmem : rowT ∈ estimateBySlug DEFAULT_CR DEFAULT_AOV [linkT] clicksT := by decide
  have h := (claim9_amended DEFAULT_CR DEFAULT_AOV [linkT] clicksT).2.2 rowT hmem
  refine ⟨hmem, h.1, h.2.1, ?_, rfl, rfl⟩
  show (mkRat 1 10 : ℚ) = 1/10
  rw [mkRat_div_eq]
  norm_num

/-- Number of click rows attributed to an account (the multi-tenant
admin queries scope `clicks` by `user_id`). -/
def countClicksM (clicks : List ClickM) (uid : ℕ) : ℕ :=
  (clicks.filter (fun c => c.userId == uid)).length

/-- Run a sequence of `GET /r/:slug` requests for one slug through the
multi-tenant handler; each element carries the fresh click id and whether
the click insert succeeds. -/
def runRedirectsM (links : List LinkM) (slug : String) :
    List ClickM → List (String × Bool) → List ClickM
  | clicks, [] => clicks
  | clicks, (cid, ok) :: rest =>
      runRedirectsM links slug
        (handleRedirectM links clicks ⟨slug, none, none, none⟩ cid ok).2 rest

theorem handleRedirectM_clicks (links : List LinkM) (clicks : List ClickM) (s : String)
    (o1 o2 o3 : Option String) (cid : String) (ok : Bool) (l1 : LinkM)
    (h : findLinkM links s = some l1) :
    (handleRedirectM links clicks ⟨s, o1, o2, o3⟩ cid ok).2 = clicks ∨
    (handleRedirectM links clicks ⟨s, o1, o2, o3⟩ cid ok).2 =
      clicks ++ [⟨l1.userId, l1.slug, cid⟩] := by
  cases ok with
  | false =>
      left
      simp [handleRedirectM, h]
  | true =>
      cases hob : buildOutUrlM l1 cid with
      | none => right; simp [handleRedirectM, h, hob]
      | some u => right; simp [handleRedirectM, h, hob]

theorem countClicksM_snoc_ne (clicks : List ClickM) (c : ClickM) (uid : ℕ)
    (h : c.userId ≠ uid) :
    countClicksM (clicks ++ [c]) uid = countClicksM clicks uid := by
  unfold countClicksM
  rw [List.filter_append]
  have hb : (c.userId == uid) = false := by simpa using h
  simp [List.filter, hb]

theorem runRedirectsM_count (links : List LinkM) (s : String) (l1 : LinkM) (uid : ℕ)
    (h1 : findLinkM links s = some l1) (h4 : uid ≠ l1.userId) :
    ∀ reqs clicks, countClicksM (runRedirectsM links s clicks reqs) uid =
      countClicksM clicks uid := by
  intro reqs
  induction reqs with
  | nil => intro clicks; rfl
  | cons rc rest ih =>
      intro clicks
      obtain ⟨cid, ok⟩ := rc
      show countClicksM (runRedirectsM links s
        (handleRedirectM links clicks ⟨s, none, none, none⟩ cid ok).2 rest) uid = _
      rw [ih]
      rcases handleRedirectM_clicks links clicks s none none none cid ok l1 h1 with he | he
      · rw [he]
      · rw [he]
        exact countClicksM_snoc_ne clicks ⟨l1.userId, l1.slug, cid⟩ uid (Ne.symm h4)

/-- C10: with per-account uniqueness only, an unscoped `GET /r/:slug`
lookup resolves a shared slug to one fixed row (the first in table
order): that owner gets every click, the other identically-named link is
unreachable and accrues none. -/
theorem claim10_theorem (links : List LinkM) (clicks : List ClickM) (s : String)
    (l1 l2 : LinkM)
    (h1 : findLinkM links s = some l1) (_h2 : l2 ∈ links) (_h3 : l2.slug = s)
    (h4 : l2.userId ≠ l1.userId) :
    l1.slug = s ∧ l1 ≠ l2 ∧
    (∀ o1 o2 o3 cid ok,
      (handleRedirectM links clicks ⟨s, o1, o2, o3⟩ cid ok).1 ≠ Response.notFound) ∧
    (∀ o1 o2 o3 cid, (handleRedirectM links clicks ⟨s, o1, o2, o3⟩ cid true).2 =
      clicks ++ [⟨l1.userId, l1.slug, cid⟩]) ∧
    (∀ reqs, countClicksM (runRedirectsM links s clicks reqs) l2.userId =
      countClicksM clicks l2.userId) := by
  refine ⟨?_, ?_, ?_, ?_, ?_⟩
  · have hp := List.find?_some h1
    simpa using hp
  · intro he
    rw [he] at h4
    exact h4 rfl
  · intro o1 o2 o3 cid ok hcon
    cases ok with
    | false => simp [handleRedirectM, h1] at hcon
    | true =>
        cases hob : buildOutUrlM l1 cid with
        | none => simp [handleRedirectM, h1, hob] at hcon
        | some u => simp [handleRedirectM, h1, hob] at hcon
  · intro o1 o2 o3 cid
    cases hob : buildOutUrlM l1 cid with
    | none => simp [handleRedirectM, h1, hob]
    | some u => simp [handleRedirectM, h1, hob]
  · intro reqs
    exact runRedirectsM_count links s l1 l2.userId h1 h4 reqs clicks

/-- Concrete two-account store sharing the slug "s". -/
def linksT2 : List LinkM :=
  [⟨1, "s", "https://a.example/", none, none, DEFAULT_CR, DEFAULT_AOV⟩,
   ⟨2, "s", "https://b.example/", none, none, DEFAULT_CR, DEFAULT_AOV⟩]

/-- C10 witness: the theorem applied to the two-account store — two
successful redirects leave account 2 with zero clicks and each click is
attributed to account 1. -/
theorem claim10_witness :
    countClicksM (runRedirectsM linksT2 "s" [] [("c1", true), ("c2", true)]) 2 =
      countClicksM [] 2 ∧
    (handleRedirectM linksT2 [] ⟨"s", none, none, none⟩ "c1" true).2 = [⟨1, "s", "c1"⟩] := by
  have h := claim10_theorem linksT2 [] "s"
    ⟨1, "s", "https://a.example/", none, none, DEFAULT_CR, DEFAULT_AOV⟩
    ⟨2, "s", "https://b.example/", none, none, DEFAULT_CR, DEFAULT_AOV⟩
    (by decide) (by decide) rfl (by decide)
  exact ⟨h.2.2.2.2 [("c1", true), ("c2", true)], h.2.2.2.1 none none none "c1"⟩
